import Mathlib

/-!
Shallow embedding of src/src/habit.rs from the dijo habit tracker: the
habit data model (Count, Bit), the TrackEvent mutation path, the
goal/remaining queries, and the tagged serialization contract.

Modelling conventions:
* chrono::NaiveDate is a year/month/day record compared fieldwise.
* HashMap<NaiveDate, T> is an association list with unique keys reached
  by the map operations actually used (get, get_mut-update, entry-upsert);
  lookup is by key, never by iteration order.
* Rust u32 values are Nat; where the source performs unchecked u32
  addition, the wrap at 2^32 is made explicit (release-build semantics;
  debug builds panic at the same input).
* CustomBool is a presentation wrapper around bool (habit.rs lines 31-53);
  every comparison in the source goes through its .0 field, so it is
  modelled as Bool directly.
-/

namespace Dijo

/-- Calendar date with year/month/day precision; equality by fields. -/
structure NaiveDate where
  year : Int
  month : Nat
  day : Nat
  deriving DecidableEq, Repr

/-- TrackEvent, habit.rs lines 13-16. -/
inductive TrackEvent where
  | Increment
  | Decrement
  deriving DecidableEq, Repr

/-- ViewMode, habit.rs lines 18-23. -/
inductive ViewMode where
  | Day
  | Month
  | Year
  deriving DecidableEq, Repr

/-- ViewMode::default, habit.rs lines 25-29. -/
def ViewMode.default : ViewMode := ViewMode.Day

/-- The u32 modulus: Rust u32 arithmetic wraps at 2^32 in release builds. -/
def u32size : Nat := 4294967296

/-- HashMap::get on the association-list model: value at the first
occurrence of the key, none when absent. -/
def lookupD {α : Type} (l : List (NaiveDate × α)) (k : NaiveDate) : Option α :=
  match l with
  | [] => none
  | (k', v) :: rest => if k = k' then some v else lookupD rest k

/-- The upsert `*map.entry(k).or_insert(v) = v` used by insert_entry:
overwrite the value at an existing key, append a fresh entry otherwise. -/
def upsertD {α : Type} (l : List (NaiveDate × α)) (k : NaiveDate) (v : α) :
    List (NaiveDate × α) :=
  match l with
  | [] => [(k, v)]
  | (k', v') :: rest =>
    if k = k' then (k, v) :: rest else (k', v') :: upsertD rest k v

/-- Count, habit.rs lines 140-151. The two view fields carry serde(skip). -/
structure Count where
  name : String
  stats : List (NaiveDate × Nat)
  goal : Nat
  view_month_offset : Nat
  view_mode : ViewMode
  deriving DecidableEq, Repr

/-- Count::new, habit.rs lines 153-163. -/
def Count.new (name : String) (goal : Nat) : Count :=
  ⟨name, [], goal, 0, ViewMode.Day⟩

/-- Habit::set_name for Count, habit.rs lines 171-173. -/
def Count.set_name (c : Count) (n : String) : Count := { c with name := n }

/-- Habit::set_goal for Count, habit.rs lines 174-176. -/
def Count.set_goal (c : Count) (g : Nat) : Count := { c with goal := g }

/-- Habit::get_by_date for Count, habit.rs lines 177-179. -/
def Count.get_by_date (c : Count) (d : NaiveDate) : Option Nat :=
  lookupD c.stats d

/-- Habit::insert_entry for Count, habit.rs lines 180-182. -/
def Count.insert_entry (c : Count) (d : NaiveDate) (v : Nat) : Count :=
  { c with stats := upsertD c.stats d v }

/-- Habit::reached_goal for Count, habit.rs lines 183-190:
some stored value with val >= goal. -/
def Count.reached_goal (c : Count) (d : NaiveDate) : Bool :=
  match lookupD c.stats d with
  | some v => decide (c.goal ≤ v)
  | none => false

/-- Habit::remaining for Count, habit.rs lines 191-201. The subtraction
goal - val only runs when reached_goal is false, hence val < goal; Nat
truncated subtraction coincides with the u32 subtraction there. -/
def Count.remaining (c : Count) (d : NaiveDate) : Nat :=
  if c.reached_goal d then 0
  else
    match lookupD c.stats d with
    | some v => c.goal - v
    | none => c.goal

/-- Habit::goal for Count, habit.rs lines 202-204 (named goalNum here
because the goal field keeps the source name). -/
def Count.goalNum (c : Count) : Nat := c.goal

/-- Habit::modify for Count, habit.rs lines 205-220. The increment branch
is the unchecked u32 addition `*val += 1`: it wraps modulo 2^32 in
release builds (debug builds panic on the same overflow); the decrement
branch floors at 0; an absent entry is created with value 1. -/
def Count.modify (c : Count) (d : NaiveDate) (e : TrackEvent) : Count :=
  match lookupD c.stats d with
  | some v =>
    match e with
    | TrackEvent.Increment =>
      { c with stats := upsertD c.stats d ((v + 1) % u32size) }
    | TrackEvent.Decrement =>
      { c with stats := upsertD c.stats d (if v > 0 then v - 1 else 0) }
  | none => c.insert_entry d 1

/-- Habit::set_view_month_offset for Count, habit.rs lines 221-223. -/
def Count.set_view_month_offset (c : Count) (o : Nat) : Count :=
  { c with view_month_offset := o }

/-- Habit::set_view_mode for Count, habit.rs lines 227-229. -/
def Count.set_view_mode (c : Count) (m : ViewMode) : Count :=
  { c with view_mode := m }

/-- Bit, habit.rs lines 235-246; CustomBool fields modelled as Bool.
The two view fields carry serde(skip). -/
structure Bit where
  name : String
  stats : List (NaiveDate × Bool)
  goal : Bool
  view_month_offset : Nat
  view_mode : ViewMode
  deriving DecidableEq, Repr

/-- Bit::new, habit.rs lines 248-258: goal starts as CustomBool(true). -/
def Bit.new (name : String) : Bit :=
  ⟨name, [], true, 0, ViewMode.Day⟩

/-- Habit::set_name for Bit, habit.rs lines 265-267. -/
def Bit.set_name (b : Bit) (n : String) : Bit := { b with name := n }

/-- Habit::set_goal for Bit, habit.rs lines 268-270: it stores the given
CustomBool into the goal field. -/
def Bit.set_goal (b : Bit) (g : Bool) : Bit := { b with goal := g }

/-- Habit::get_by_date for Bit, habit.rs lines 271-273. -/
def Bit.get_by_date (b : Bit) (d : NaiveDate) : Option Bool :=
  lookupD b.stats d

/-- Habit::insert_entry for Bit, habit.rs lines 274-276. -/
def Bit.insert_entry (b : Bit) (d : NaiveDate) (v : Bool) : Bit :=
  { b with stats := upsertD b.stats d v }

/-- Habit::reached_goal for Bit, habit.rs lines 277-284: the comparison is
`val.0 >= self.goal.0` under the bool order false < true, which is
val || !goal. -/
def Bit.reached_goal (b : Bit) (d : NaiveDate) : Bool :=
  match lookupD b.stats d with
  | some v => v || !b.goal
  | none => false

/-- Habit::remaining for Bit, habit.rs lines 285-295. -/
def Bit.remaining (b : Bit) (d : NaiveDate) : Nat :=
  match lookupD b.stats d with
  | some v => if v then 0 else 1
  | none => 1

/-- Habit::goal for Bit, habit.rs lines 296-298: the constant 1,
independent of the goal field. -/
def Bit.goalNum (_ : Bit) : Nat := 1

/-- Habit::modify for Bit, habit.rs lines 299-305: flip an existing value
with `val.0 ^ true` (the event is ignored), create an absent entry as
CustomBool(true). -/
def Bit.modify (b : Bit) (d : NaiveDate) (_ : TrackEvent) : Bit :=
  match lookupD b.stats d with
  | some v => { b with stats := upsertD b.stats d (xor v true) }
  | none => b.insert_entry d true

/-- Habit::set_view_month_offset for Bit, habit.rs lines 306-308. -/
def Bit.set_view_month_offset (b : Bit) (o : Nat) : Bit :=
  { b with view_month_offset := o }

/-- Habit::set_view_mode for Bit, habit.rs lines 312-314. -/
def Bit.set_view_mode (b : Bit) (m : ViewMode) : Bit :=
  { b with view_mode := m }

/-- The serde field set of a serialized Count record: name, stats, goal.
The view fields carry serde(skip) (habit.rs lines 146, 149) and are
absent from the serialized form. -/
structure CountRecord where
  name : String
  stats : List (NaiveDate × Nat)
  goal : Nat
  deriving DecidableEq, Repr

/-- The serde field set of a serialized Bit record (habit.rs lines
235-246), with the serde(skip) view fields absent. -/
structure BitRecord where
  name : String
  stats : List (NaiveDate × Bool)
  goal : Bool
  deriving DecidableEq, Repr

/-- The per-variant field payload of a wrapped-habit record. -/
inductive HabitPayload where
  | countP : CountRecord → HabitPayload
  | bitP : BitRecord → HabitPayload
  deriving DecidableEq, Repr

/-- A wrapped-habit record as persisted under
`#[typetag::serde(tag = "type")]` (habit.rs line 75): a discriminant
string alongside the concrete variant's fields. -/
structure WrappedRecord where
  tag : String
  payload : HabitPayload
  deriving DecidableEq, Repr

/-- The result of decoding a wrapped-habit record: one of the two
concrete habit kinds. -/
inductive DeserializedHabit where
  | count : Count → DeserializedHabit
  | bit : Bit → DeserializedHabit
  deriving DecidableEq, Repr

/-- Decoding failures: an unrecognized "type" discriminant, or fields
that do not match the dispatched variant. -/
inductive DeserializeError where
  | unknownVariant : String → DeserializeError
  | fieldMismatch : DeserializeError
  deriving DecidableEq, Repr

/-- Serialization of Count under typetag::serde: the impl name "Count"
as discriminant (habit.rs lines 95-96, 137) plus the non-skipped fields. -/
def serializeCount (c : Count) : WrappedRecord :=
  ⟨"Count", HabitPayload.countP ⟨c.name, c.stats, c.goal⟩⟩

/-- Serialization of Bit under typetag::serde: the impl name "Bit" as
discriminant (habit.rs lines 95-96, 138) plus the non-skipped fields. -/
def serializeBit (b : Bit) : WrappedRecord :=
  ⟨"Bit", HabitPayload.bitP ⟨b.name, b.stats, b.goal⟩⟩

/-- Modelled from the spec: the deserialization dispatch itself is
macro-generated by typetag from the attributes at habit.rs lines 75 and
95, and its body is not under src/. Per the spec's serialization
contract, decoding dispatches on the "type" discriminant, reconstructs
the matching concrete variant from its fields with the serde(skip) view
fields reset to their defaults (offset 0, ViewMode::Day), and fails with
a distinguishable unknown-variant error when the discriminant names
neither registered habit kind, producing no habit value in that case. -/
def deserializeWrapped (w : WrappedRecord) :
    Except DeserializeError DeserializedHabit :=
  if w.tag = "Count" then
    match w.payload with
    | HabitPayload.countP r =>
      Except.ok (DeserializedHabit.count ⟨r.name, r.stats, r.goal, 0, ViewMode.Day⟩)
    | _ => Except.error DeserializeError.fieldMismatch
  else if w.tag = "Bit" then
    match w.payload with
    | HabitPayload.bitP r =>
      Except.ok (DeserializedHabit.bit ⟨r.name, r.stats, r.goal, 0, ViewMode.Day⟩)
    | _ => Except.error DeserializeError.fieldMismatch
  else
    Except.error (DeserializeError.unknownVariant w.tag)

/-- The mutating Habit-trait operations on a Count, as one alphabet for
quantifying over operation sequences. -/
inductive CountOp where
  | insertEntryOp : NaiveDate → Nat → CountOp
  | modifyOp : NaiveDate → TrackEvent → CountOp
  | setGoalOp : Nat → CountOp
  | setNameOp : String → CountOp
  | setViewModeOp : ViewMode → CountOp
  | setViewMonthOffsetOp : Nat → CountOp
  deriving DecidableEq, Repr

/-- Dispatch a CountOp to the corresponding Habit-trait method. -/
def CountOp.apply : CountOp → Count → Count
  | insertEntryOp d v, c => c.insert_entry d v
  | modifyOp d e, c => c.modify d e
  | setGoalOp g, c => c.set_goal g
  | setNameOp n, c => c.set_name n
  | setViewModeOp m, c => c.set_view_mode m
  | setViewMonthOffsetOp o, c => c.set_view_month_offset o

/-- The mutating Habit-trait operations on a Bit. -/
inductive BitOp where
  | insertEntryOp : NaiveDate → Bool → BitOp
  | modifyOp : NaiveDate → TrackEvent → BitOp
  | setGoalOp : Bool → BitOp
  | setNameOp : String → BitOp
  | setViewModeOp : ViewMode → BitOp
  | setViewMonthOffsetOp : Nat → BitOp
  deriving DecidableEq, Repr

/-- Dispatch a BitOp to the corresponding Habit-trait method. -/
def BitOp.apply : BitOp → Bit → Bit
  | insertEntryOp d v, b => b.insert_entry d v
  | modifyOp d e, b => b.modify d e
  | setGoalOp g, b => b.set_goal g
  | setNameOp n, b => b.set_name n
  | setViewModeOp m, b => b.set_view_mode m
  | setViewMonthOffsetOp o, b => b.set_view_month_offset o

/-- Looking up the upserted key finds the new value. -/
theorem lookupD_upsertD_self {α : Type} (l : List (NaiveDate × α))
    (k : NaiveDate) (v : α) : lookupD (upsertD l k v) k = some v := by
  induction l with
  | nil => simp [upsertD, lookupD]
  | cons hd tl ih =>
    obtain ⟨k0, v0⟩ := hd
    by_cases h : k = k0
    · simp [upsertD, lookupD, h]
    · simp [upsertD, lookupD, h, ih]

/-- Upserting one key leaves the lookup at every other key unchanged. -/
theorem lookupD_upsertD_ne {α : Type} (l : List (NaiveDate × α))
    (k k' : NaiveDate) (v : α) (hne : k' ≠ k) :
    lookupD (upsertD l k v) k' = lookupD l k' := by
  induction l with
  | nil => simp [upsertD, lookupD, hne]
  | cons hd tl ih =>
    obtain ⟨k0, v0⟩ := hd
    by_cases h : k = k0
    · subst h
      simp [upsertD, lookupD, hne]
    · by_cases h2 : k' = k0 <;> simp [upsertD, lookupD, h, h2, ih]

/-- Upserting never removes a present key. -/
theorem isSome_lookupD_upsertD {α : Type} (l : List (NaiveDate × α))
    (k k' : NaiveDate) (v : α) (h : (lookupD l k').isSome = true) :
    (lookupD (upsertD l k v) k').isSome = true := by
  by_cases he : k' = k
  · subst he
    simp [lookupD_upsertD_self]
  · rw [lookupD_upsertD_ne l k k' v he]
    exact h

/-- C1 counterexample: a Counter entry can hold u32::MAX = 4294967295,
and there Increment wraps the stored value to 0 instead of storing
V + 1 = 4294967296, so the claim as stated fails at that input. -/
theorem c1_counterexample :
    lookupD ((Count.mk "c" [(⟨2024, 1, 1⟩, 4294967295)] 5 0 ViewMode.Day).modify
        ⟨2024, 1, 1⟩ TrackEvent.Increment).stats ⟨2024, 1, 1⟩ ≠
      some 4294967296 := by
  decide

/-- C1 (amended): for a Counter entry holding V, modify(d, Increment)
stores V + 1 whenever V + 1 < 2^32 (at V = u32::MAX the unchecked u32
addition overflows instead), modify(d, Decrement) stores max(V - 1, 0)
so repeated Decrement never goes below 0, and on an absent entry
modify(d, e) creates the entry with value 1 for either event kind. -/
theorem c1_count_modify (c : Count) (d : NaiveDate) :
    (∀ v, lookupD c.stats d = some v →
      (v + 1 < u32size →
        lookupD ((c.modify d TrackEvent.Increment)).stats d = some (v + 1)) ∧
      lookupD ((c.modify d TrackEvent.Decrement)).stats d = some (v - 1)) ∧
    (lookupD c.stats d = none →
      ∀ e, lookupD ((c.modify d e)).stats d = some 1) := by
  constructor
  · intro v hv
    constructor
    · intro hlt
      simp [Count.modify, hv, Nat.mod_eq_of_lt hlt, lookupD_upsertD_self]
    · have hif : (if v > 0 then v - 1 else 0) = v - 1 := by
        split <;> omega
      simp [Count.modify, hv, hif, lookupD_upsertD_self]
  · intro hn e
    simp [Count.modify, hn, Count.insert_entry, lookupD_upsertD_self]

/-- C1 witness: on a Counter holding 3 at the date, Increment stores 4. -/
theorem c1_count_modify_witness :
    lookupD ((Count.mk "w" [(⟨2024, 1, 1⟩, 3)] 5 0 ViewMode.Day).modify
        ⟨2024, 1, 1⟩ TrackEvent.Increment).stats ⟨2024, 1, 1⟩ = some 4 :=
  ((c1_count_modify (Count.mk "w" [(⟨2024, 1, 1⟩, 3)] 5 0 ViewMode.Day)
    ⟨2024, 1, 1⟩).1 3 (by decide)).1 (by decide)

/-- C2: Bit::modify replaces an existing entry's value with its logical
negation and creates an absent entry as true, for either event kind. -/
theorem c2_bit_modify (b : Bit) (d : NaiveDate) (e : TrackEvent) :
    lookupD (b.modify d e).stats d =
      some (match lookupD b.stats d with
            | some v => !v
            | none => true) := by
  cases hv : lookupD b.stats d with
  | some v => cases v <;> simp [Bit.modify, hv, lookupD_upsertD_self]
  | none => simp [Bit.modify, hv, Bit.insert_entry, lookupD_upsertD_self]

/-- C3: on an absent date a Counter's remaining is the full goal and the
goal is not reached; on a stored value V, remaining is max(goal - V, 0)
(Nat subtraction truncates) and the goal is reached iff goal <= V. -/
theorem c3_count_queries (c : Count) (d : NaiveDate) :
    (lookupD c.stats d = none →
      c.remaining d = c.goalNum ∧ c.reached_goal d = false) ∧
    (∀ v, lookupD c.stats d = some v →
      c.remaining d = c.goal - v ∧ (c.reached_goal d = true ↔ c.goal ≤ v)) := by
  constructor
  · intro hn
    simp [Count.remaining, Count.reached_goal, Count.goalNum, hn]
  · intro v hv
    by_cases hge : c.goal ≤ v
    · refine ⟨?_, by simp [Count.reached_goal, hv, hge]⟩
      simp [Count.remaining, Count.reached_goal, hv, hge,
        Nat.sub_eq_zero_of_le hge]
    · refine ⟨?_, by simp [Count.reached_goal, hv, hge]⟩
      simp [Count.remaining, Count.reached_goal, hv, hge]

/-- C3 witness: a Counter with goal 20 holding 15 has remaining 5 and has
not reached its goal. -/
theorem c3_count_queries_witness :
    (Count.mk "w" [(⟨2024, 1, 1⟩, 15)] 20 0 ViewMode.Day).remaining
        ⟨2024, 1, 1⟩ = 20 - 15 ∧
    ((Count.mk "w" [(⟨2024, 1, 1⟩, 15)] 20 0 ViewMode.Day).reached_goal
        ⟨2024, 1, 1⟩ = true ↔ 20 ≤ 15) :=
  (c3_count_queries (Count.mk "w" [(⟨2024, 1, 1⟩, 15)] 20 0 ViewMode.Day)
    ⟨2024, 1, 1⟩).2 15 (by decide)

/-- C4: serializing a Count or a Bit and deserializing the result
(dispatching on the embedded "type" discriminant) yields the same
concrete kind with the same name, the same goal, and exactly the same
date-to-value entries, while view_mode is reset to Day and
view_month_offset to 0 regardless of their pre-serialization values. -/
theorem c4_roundtrip :
    (∀ c : Count, deserializeWrapped (serializeCount c) =
      Except.ok (DeserializedHabit.count
        ⟨c.name, c.stats, c.goal, 0, ViewMode.Day⟩)) ∧
    (∀ b : Bit, deserializeWrapped (serializeBit b) =
      Except.ok (DeserializedHabit.bit
        ⟨b.name, b.stats, b.goal, 0, ViewMode.Day⟩)) := by
  constructor
  · intro c
    rfl
  · intro b
    rfl

/-- C5: decoding a wrapped-habit record whose discriminant matches
neither "Count" nor "Bit" fails with the distinguishable unknown-variant
error carrying that discriminant, producing no habit value. -/
theorem c5_unknown_variant (w : WrappedRecord)
    (h1 : w.tag ≠ "Count") (h2 : w.tag ≠ "Bit") :
    deserializeWrapped w =
      Except.error (DeserializeError.unknownVariant w.tag) := by
  simp [deserializeWrapped, h1, h2]

/-- C5 witness: a record tagged "Gremlin" fails with unknownVariant. -/
theorem c5_unknown_variant_witness :
    deserializeWrapped ⟨"Gremlin", HabitPayload.countP ⟨"x", [], 0⟩⟩ =
      Except.error (DeserializeError.unknownVariant "Gremlin") :=
  c5_unknown_variant ⟨"Gremlin", HabitPayload.countP ⟨"x", [], 0⟩⟩
    (by decide) (by decide)

/-- C6 counterexample: after set_goal(false) — a reachable state — the
Toggle's reached_goal is true at a date whose stored value is false, so
reached_goal is not equivalent to "entry exists and is true" and
set_goal is not a no-op on observable behavior. -/
theorem c6_counterexample :
    (((Bit.new "b").insert_entry ⟨2024, 2, 1⟩ false).set_goal
        false).reached_goal ⟨2024, 2, 1⟩ = true ∧
    lookupD (((Bit.new "b").insert_entry ⟨2024, 2, 1⟩ false).set_goal
        false).stats ⟨2024, 2, 1⟩ = some false := by
  decide

/-- C6 (amended): as long as the Toggle's goal field is true — its
initial value, unchanged unless set_goal(false) is called —
reached_goal(d) is true iff the stored value for d exists and is true.
In general reached_goal compares value >= goal in the bool order, so
set_goal(false) observably changes reached_goal (it then returns true
for a stored false) and is not a no-op. -/
theorem c6_bit_reached_goal (b : Bit) (d : NaiveDate) (hg : b.goal = true) :
    b.reached_goal d = true ↔ lookupD b.stats d = some true := by
  cases hv : lookupD b.stats d with
  | some v => cases v <;> simp [Bit.reached_goal, hv, hg]
  | none => simp [Bit.reached_goal, hv]

/-- C6 witness: a fresh Toggle (goal true) with a true entry at the date
has reached its goal. -/
theorem c6_bit_reached_goal_witness :
    ((Bit.new "m").insert_entry ⟨2024, 2, 1⟩ true).reached_goal
        ⟨2024, 2, 1⟩ = true ↔
      lookupD ((Bit.new "m").insert_entry ⟨2024, 2, 1⟩ true).stats
        ⟨2024, 2, 1⟩ = some true :=
  c6_bit_reached_goal ((Bit.new "m").insert_entry ⟨2024, 2, 1⟩ true)
    ⟨2024, 2, 1⟩ (by decide)

/-- C7: the numeric goal projection of a Toggle is 1 for every state, in
particular after every sequence of Habit-trait operations (set_goal
included) applied to any starting Toggle. -/
theorem c7_bit_goal_one :
    (∀ b : Bit, b.goalNum = 1) ∧
    (∀ (ops : List BitOp) (b : Bit),
      (List.foldl (fun s o => BitOp.apply o s) b ops).goalNum = 1) :=
  ⟨fun _ => rfl, fun _ _ => rfl⟩

/-- C8: evaluating the code at the failing input. With the stored value
at u32::MAX = 4294967295, the unchecked `*val += 1` in Count::modify
overflows u32: the stored value after Increment is 0 (wrapped in release
builds; debug builds panic at the same input), not a saturated value —
the increment arithmetic is neither saturating nor clamped. -/
theorem c8_increment_overflow :
    lookupD ((Count.mk "c" [(⟨2024, 1, 1⟩, 4294967295)] 20 0 ViewMode.Day).modify
        ⟨2024, 1, 1⟩ TrackEvent.Increment).stats ⟨2024, 1, 1⟩ = some 0 := by
  decide

/-- C9: every Habit-trait operation (insert_entry, modify, set_goal,
set_name, and the view setters) preserves every date key already present
in the stats map, for Count and for Bit alike. -/
theorem c9_keys_preserved :
    (∀ (op : CountOp) (c : Count) (d : NaiveDate),
      (lookupD c.stats d).isSome = true →
      (lookupD (op.apply c).stats d).isSome = true) ∧
    (∀ (op : BitOp) (b : Bit) (d : NaiveDate),
      (lookupD b.stats d).isSome = true →
      (lookupD (op.apply b).stats d).isSome = true) := by
  constructor
  · intro op c d h
    cases op with
    | insertEntryOp d' v => exact isSome_lookupD_upsertD c.stats d' d v h
    | modifyOp d' e =>
      cases hv : lookupD c.stats d' with
      | some v =>
        cases e <;>
          simpa [CountOp.apply, Count.modify, hv] using
            isSome_lookupD_upsertD c.stats d' d _ h
      | none =>
        simpa [CountOp.apply, Count.modify, hv, Count.insert_entry] using
          isSome_lookupD_upsertD c.stats d' d 1 h
    | setGoalOp g => exact h
    | setNameOp n => exact h
    | setViewModeOp m => exact h
    | setViewMonthOffsetOp o => exact h
  · intro op b d h
    cases op with
    | insertEntryOp d' v => exact isSome_lookupD_upsertD b.stats d' d v h
    | modifyOp d' e =>
      cases hv : lookupD b.stats d' with
      | some v =>
        simpa [BitOp.apply, Bit.modify, hv] using
          isSome_lookupD_upsertD b.stats d' d (xor v true) h
      | none =>
        simpa [BitOp.apply, Bit.modify, hv, Bit.insert_entry] using
          isSome_lookupD_upsertD b.stats d' d true h
    | setGoalOp g => exact h
    | setNameOp n => exact h
    | setViewModeOp m => exact h
    | setViewMonthOffsetOp o => exact h

/-- C9 witness: a present key survives a modify at another date. -/
theorem c9_keys_preserved_witness :
    (lookupD ((CountOp.modifyOp ⟨2024, 1, 2⟩ TrackEvent.Increment).apply
        (Count.mk "w" [(⟨2024, 1, 1⟩, 2)] 5 0 ViewMode.Day)).stats
      ⟨2024, 1, 1⟩).isSome = true :=
  c9_keys_preserved.1 (CountOp.modifyOp ⟨2024, 1, 2⟩ TrackEvent.Increment)
    (Count.mk "w" [(⟨2024, 1, 1⟩, 2)] 5 0 ViewMode.Day) ⟨2024, 1, 1⟩
    (by decide)

/-- C10: modify changes at most the stats entry at the given date — the
habit's name, goal, view_month_offset, view_mode, and the stored values
of all other dates are unchanged, for Count and for Bit alike. -/
theorem c10_modify_frame :
    (∀ (c : Count) (d : NaiveDate) (e : TrackEvent),
      (c.modify d e).name = c.name ∧
      (c.modify d e).goal = c.goal ∧
      (c.modify d e).view_month_offset = c.view_month_offset ∧
      (c.modify d e).view_mode = c.view_mode ∧
      ∀ d', d' ≠ d → lookupD (c.modify d e).stats d' = lookupD c.stats d') ∧
    (∀ (b : Bit) (d : NaiveDate) (e : TrackEvent),
      (b.modify d e).name = b.name ∧
      (b.modify d e).goal = b.goal ∧
      (b.modify d e).view_month_offset = b.view_month_offset ∧
      (b.modify d e).view_mode = b.view_mode ∧
      ∀ d', d' ≠ d → lookupD (b.modify d e).stats d' = lookupD b.stats d') := by
  constructor
  · intro c d e
    cases hv : lookupD c.stats d with
    | some v =>
      cases e <;>
        exact ⟨by simp [Count.modify, hv], by simp [Count.modify, hv],
          by simp [Count.modify, hv], by simp [Count.modify, hv],
          fun d' hne => by
            simp [Count.modify, hv, lookupD_upsertD_ne c.stats d d' _ hne]⟩
    | none =>
      exact ⟨by simp [Count.modify, hv, Count.insert_entry],
        by simp [Count.modify, hv, Count.insert_entry],
        by simp [Count.modify, hv, Count.insert_entry],
        by simp [Count.modify, hv, Count.insert_entry],
        fun d' hne => by
          simp [Count.modify, hv, Count.insert_entry,
            lookupD_upsertD_ne c.stats d d' 1 hne]⟩
  · intro b d e
    cases hv : lookupD b.stats d with
    | some v =>
      exact ⟨by simp [Bit.modify, hv], by simp [Bit.modify, hv],
        by simp [Bit.modify, hv], by simp [Bit.modify, hv],
        fun d' hne => by
          simp [Bit.modify, hv, lookupD_upsertD_ne b.stats d d' _ hne]⟩
    | none =>
      exact ⟨by simp [Bit.modify, hv, Bit.insert_entry],
        by simp [Bit.modify, hv, Bit.insert_entry],
        by simp [Bit.modify, hv, Bit.insert_entry],
        by simp [Bit.modify, hv, Bit.insert_entry],
        fun d' hne => by
          simp [Bit.modify, hv, Bit.insert_entry,
            lookupD_upsertD_ne b.stats d d' true hne]⟩

/-- C10 witness: modify at 2024-01-02 leaves the entry at 2024-01-01 of a
concrete Counter unchanged. -/
theorem c10_modify_frame_witness :
    lookupD ((Count.mk "w" [(⟨2024, 1, 1⟩, 2)] 5 0 ViewMode.Day).modify
        ⟨2024, 1, 2⟩ TrackEvent.Increment).stats ⟨2024, 1, 1⟩ =
      lookupD (Count.mk "w" [(⟨2024, 1, 1⟩, 2)] 5 0 ViewMode.Day).stats
        ⟨2024, 1, 1⟩ :=
  (c10_modify_frame.1 (Count.mk "w" [(⟨2024, 1, 1⟩, 2)] 5 0 ViewMode.Day)
    ⟨2024, 1, 2⟩ TrackEvent.Increment).2.2.2.2 ⟨2024, 1, 1⟩ (by decide)

end Dijo
